import Mathlib

/-!
Verification of the tits-dot-fun pool lifecycle / AMM deviation engine.

Shallow embedding of the Move sources:
* `MathUtils`      — `tits_fun::math_utils` (first `math_utils` variant in
  `src/supra/move_workspace/titsFun/build/tits_dot_fun/sources/dependencies/SupraVrf/deposit.move`).
* `PoolPair`       — `deployer_addr::pool_pair`
  (`src/supra/move_workspace/titsFun/sources/pool_pair.move`).
* `CurveLauncher`  — `deployer_addr::curve_launcher`, second (candle_count) variant
  (`src/supra/move_workspace/titsFun/sources/curve_launcher.move`).
* `PoolManager`    — `tits_fun::pool_manager` (`src/unnamed/part_014`).
* `PoolManager13`  — the older `tits_fun::pool_manager` snapshot (`src/unnamed/part_013`).

Modelling conventions:
* Move `u64`/`u128` are embedded as `Nat`.  Move arithmetic aborts on
  overflow/underflow; an aborted transaction leaves all on-chain state
  unchanged, exactly like the `Except.error` results of the embedded entry
  points, so every theorem about an `Except.ok` result speaks about accepted
  (non-aborting) executions.  The saturating operations of `math_utils`
  (`safe_add`, `safe_sub`, `safe_mul`, ...) never abort and are embedded with
  their explicit clamping at `MAX_U128` and `0`.
* Move addresses are embedded as `Nat` (`@0x0` becomes `0`).
* `assert!(c, e)` becomes an early `Except.error e`; the `std::error` category
  wrappers are dropped and the module-level error constants are kept.
* Events, coin-transfer plumbing against the Supra framework, and the VRF
  request calls are external effects that do not feed back into the pool
  state; they are not part of the state carried by the embedding (the
  treasury-forwarding of a lock is visible as the zeroed reserves).
-/

namespace TitsFun

namespace MathUtils

/-- Fixed point precision (10^8), from `tits_fun::math_utils`. -/
def PRECISION : Nat := 100000000

/-- Maximum value of a Move `u128`. -/
def MAX_U128 : Nat := 340282366920938463463374607431768211455

/-- The literal `18446744073709551615u128` used to seed the winner searches
(the maximum `u64`, although the surrounding comment in the source calls it
"Max u128"). -/
def U64MAX : Nat := 18446744073709551615

/-- Move `safe_add`: saturating addition at `MAX_U128`. -/
def safe_add (a b : Nat) : Nat :=
  if MAX_U128 - b < a then MAX_U128 else a + b

/-- Move `safe_sub`: saturating subtraction at zero. -/
def safe_sub (a b : Nat) : Nat :=
  if a < b then 0 else a - b

/-- Move `safe_mul`: saturating multiplication at `MAX_U128`. -/
def safe_mul (a b : Nat) : Nat :=
  if a = 0 ∨ b = 0 then 0
  else if MAX_U128 / b < a then MAX_U128
  else a * b

/-- Move `safe_div`: division returning 0 on a zero divisor. -/
def safe_div (a b : Nat) : Nat :=
  if b = 0 then 0 else a / b

/-- Move `safe_div_precision`: `(a * PRECISION) / b` with a divide-before-multiply
fallback when `a * PRECISION` would overflow. -/
def safe_div_precision (a b : Nat) : Nat :=
  if b = 0 then 0
  else if MAX_U128 / PRECISION < a then (a / b) * PRECISION
  else (a * PRECISION) / b

/-- Move `safe_div_fixed_point`: same computation as `safe_div_precision`
(fixed-point inputs, fixed-point output). -/
def safe_div_fixed_point (a b : Nat) : Nat :=
  if b = 0 then 0
  else if MAX_U128 / PRECISION < a then (a / b) * PRECISION
  else (a * PRECISION) / b

/-- Move `safe_mul_fixed_point`: `(a * b) / PRECISION` with a scale-down fallback
when the product would overflow. -/
def safe_mul_fixed_point (a b : Nat) : Nat :=
  if a = 0 ∨ b = 0 then 0
  else if MAX_U128 / b < a then
    if b < a then (a / PRECISION) * b else a * (b / PRECISION)
  else (a * b) / PRECISION

/-- Move `abs_diff` on unsigned integers. -/
def abs_diff (a b : Nat) : Nat :=
  if b < a then a - b else b - a

/-- The linear-search loop of `sqrt` for inputs below 10000:
`while (i * i <= x && i < 100) i = i + 1; return i - 1`, with the loop
bounded by an explicit fuel (the `i < 100` guard caps it at 99 iterations). -/
def lsearch (x : Nat) : Nat → Nat → Nat
  | i, fuel + 1 => if i * i ≤ x ∧ i < 100 then lsearch x (i + 1) fuel else i - 1
  | i, 0 => i - 1

/-- The Newton loop of `sqrt`:
`while (y < z && iterations < 20) { z = y; y = (x / y + y) / 2; }; return z`,
with the fuel counting the remaining allowed iterations (20 at entry). -/
def newtonAux (x : Nat) : Nat → Nat → Nat → Nat
  | z, y, fuel + 1 => if y < z then newtonAux x y ((x / y + y) / 2) fuel else z
  | z, _, 0 => z

/-- Move `sqrt` from `tits_fun::math_utils`: linear search below 10000, the Newton
method capped at 20 iterations above. -/
def sqrt (x : Nat) : Nat :=
  if x = 0 then 0
  else if x = 1 then 1
  else if x < 10000 then lsearch x 1 100
  else newtonAux x x ((x + 1) / 2) 20

/-- Move `calculate_curve_y`: bonded curve `y = 4*H*x*(L-x)/L^2`, regular-number
inputs, fixed-point output; 0 on `x > l`, `l = 0` or `x = 0`. -/
def calculate_curve_y (x h l : Nat) : Nat :=
  if l < x ∨ l = 0 then 0
  else if x = 0 then 0
  else
    let l_minus_x := safe_sub l x
    let four_h := safe_mul 4 h
    let numerator := safe_mul (safe_mul four_h x) l_minus_x
    let denominator := safe_mul l l
    safe_div_fixed_point numerator denominator

/-- Move `calculate_amm_out`: constant-product AMM output
`y_reserve - k / (x_reserve + x_in)`, 0 on any degenerate zero input. -/
def calculate_amm_out (x_in x_reserve y_reserve : Nat) : Nat :=
  if x_reserve = 0 ∨ y_reserve = 0 ∨ x_in = 0 then 0
  else
    let k := safe_mul x_reserve y_reserve
    let new_x_reserve := safe_add x_reserve x_in
    if new_x_reserve = 0 then 0
    else
      let new_y_reserve := safe_div k new_x_reserve
      safe_sub y_reserve new_y_reserve

/-- Move `to_fixed_point`: scale by `PRECISION`, saturating at `MAX_U128`. -/
def to_fixed_point (value : Nat) : Nat :=
  if MAX_U128 / PRECISION < value then MAX_U128 else value * PRECISION

/-- Move `from_fixed_point`: unscale by `PRECISION`. -/
def from_fixed_point (value : Nat) : Nat :=
  value / PRECISION

end MathUtils

/- ===== helper lemmas about the math layer ===== -/

namespace MathUtils

/-- The linear-search loop returns the integer square root: if the running
index `i` is positive, at most 100, has `(i-1)^2 ≤ x`, the input is in the
linear-search range and enough fuel remains, the loop lands on `Nat.sqrt x`. -/
theorem lsearch_eq_sqrt (x : Nat) :
    ∀ fuel i, 0 < i → i ≤ 100 → (i - 1) * (i - 1) ≤ x → x < 10000 →
      101 - i ≤ fuel → lsearch x i fuel = Nat.sqrt x := by
  intro fuel
  induction fuel with
  | zero =>
    intro i hi hle _ _ hfuel
    omega
  | succ fuel ih =>
    intro i hi hle hlow hx hfuel
    show (if i * i ≤ x ∧ i < 100 then lsearch x (i + 1) fuel else i - 1) = Nat.sqrt x
    by_cases hcond : i * i ≤ x ∧ i < 100
    · rw [if_pos hcond]
      exact ih (i + 1) (by omega) (by omega) (by simpa using hcond.1) hx (by omega)
    · rw [if_neg hcond]
      have hup : x < i * i := by
        rcases Decidable.or_iff_not_and_not.mpr
          (fun h => hcond ⟨Decidable.not_not.mp h.1, Decidable.not_not.mp h.2⟩)
          with h | h
        · omega
        · have h100 : 100 ≤ i := by omega
          have : 10000 ≤ i * i := by
            calc 10000 = 100 * 100 := by norm_num
            _ ≤ i * i := Nat.mul_le_mul h100 h100
          omega
      have h1 : i - 1 ≤ Nat.sqrt x := Nat.le_sqrt.mpr hlow
      have h2 : Nat.sqrt x < i := Nat.sqrt_lt.mpr hup
      omega

/-- On the linear-search range the source square root agrees with
`Nat.sqrt`. -/
theorem sqrt_eq_nat_sqrt_of_lt (x : Nat) (hx : x < 10000) :
    sqrt x = Nat.sqrt x := by
  unfold sqrt
  by_cases h0 : x = 0
  · simp [h0]
  · rw [if_neg h0]
    by_cases h1 : x = 1
    · simp [h1]
    · rw [if_neg h1, if_pos hx]
      exact lsearch_eq_sqrt x 100 1 (by omega) (by omega) (by omega) hx (by omega)

/-- Unscaling the precision-aware division recovers plain integer division,
in both the direct and the fallback branch. -/
theorem from_fixed_safe_div_precision (a b : Nat) :
    from_fixed_point (safe_div_precision a b) = a / b := by
  unfold from_fixed_point safe_div_precision
  have hP : 0 < PRECISION := by norm_num [PRECISION]
  by_cases hb : b = 0
  · simp [hb]
  · rw [if_neg hb]
    by_cases hbig : MAX_U128 / PRECISION < a
    · rw [if_pos hbig, Nat.mul_div_cancel _ hP]
    · rw [if_neg hbig, Nat.div_div_eq_div_mul, Nat.mul_comm b PRECISION,
        Nat.mul_comm a PRECISION, Nat.mul_div_mul_left _ _ hP]

/-- Move `safe_mul` is exact multiplication whenever the true product fits. -/
theorem safe_mul_eq_of_le (a b : Nat) (h : a * b ≤ MAX_U128) :
    safe_mul a b = a * b := by
  unfold safe_mul
  by_cases h0 : a = 0 ∨ b = 0
  · rcases h0 with h0 | h0 <;> simp [h0]
  · push_neg at h0
    rw [if_neg (by rintro (h1 | h1) <;> exact absurd h1 (by omega))]
    rw [if_neg (by
      have hb : 0 < b := by omega
      have := (Nat.le_div_iff_mul_le hb).mpr h
      omega)]

end MathUtils

namespace PoolPair

/-- Move `curve_launcher::CurveParams` as consumed by `pool_pair` (`height`,
`length` (= candle count), `ticker_duration`, `threshold_percent`; the
constant `pool_duration` field is dropped). -/
structure CurveParams where
  height : Nat
  length : Nat
  ticker_duration : Nat
  threshold_percent : Nat
  deriving DecidableEq, Repr

/-- Move `pool_pair::TraderScore`. -/
structure TraderScore where
  trader : Nat
  total_deviation : Nat
  trade_count : Nat
  volume : Nat
  score : Nat
  deriving DecidableEq, Repr

/-- Move `pool_pair::Pool`.  `reserve_coin` carries the value of the
`Coin<StableCoin>` reserve; trades and winner data are as in the source
(the raw `trades : vector<TradePoint>` log is never read back and is
omitted). -/
structure Pool where
  id : Nat
  params : CurveParams
  start_time : Nat
  end_time : Nat
  is_active : Bool
  is_locked : Bool
  total_supply : Nat
  reserve_coin : Nat
  reserve_token : Nat
  trader_scores : List TraderScore
  winner : Nat
  total_volume : Nat
  last_deviation_check : Nat
  deriving DecidableEq, Repr

def POOL_DURATION_SECONDS : Nat := 86400
def INITIAL_LIQUIDITY : Nat := 100000000000000

def EPOOL_NOT_ACTIVE : Nat := 1
def EPOOL_LOCKED : Nat := 2
def EINSUFFICIENT_LIQUIDITY : Nat := 3
def EINVALID_AMOUNT : Nat := 5
def EPOOL_NOT_STARTED : Nat := 6
def EPOOL_ENDED : Nat := 7

/-- Move `pool_pair::create_pool` (the `Pool` value it moves to storage). -/
def create_pool (pool_id : Nat) (params : CurveParams) (start_time : Nat) : Pool :=
  { id := pool_id
    params := params
    start_time := start_time
    end_time := start_time + POOL_DURATION_SECONDS
    is_active := false
    is_locked := false
    total_supply := 1000000
    reserve_coin := 0
    reserve_token := INITIAL_LIQUIDITY
    trader_scores := []
    winner := 0
    total_volume := 0
    last_deviation_check := 0 }

/-- Move `get_current_candle`: candle index from elapsed minutes, clamped at
`length - 1`. -/
def get_current_candle (pool : Pool) (now : Nat) : Nat :=
  let elapsed_seconds := now - pool.start_time
  let elapsed_minutes := elapsed_seconds / 60
  let candle_duration := pool.params.ticker_duration
  let current_candle := elapsed_minutes / candle_duration
  if pool.params.length ≤ current_candle then pool.params.length - 1
  else current_candle

/-- Move `calculate_expected_price_for_candle`: `4*h*candle*(l-candle) / (l*l)`,
0 at or past the curve end. -/
def calculate_expected_price_for_candle (pool : Pool) (candle : Nat) : Nat :=
  let h := pool.params.height
  let l := pool.params.length
  if l ≤ candle then 0
  else 4 * h * candle * (l - candle) / (l * l)

/-- Move `calculate_buy_amount`: constant-product output for a buy, with the 1:1
bootstrap on an empty reserve. -/
def calculate_buy_amount (pool : Pool) (coin_amount : Nat) : Nat :=
  let coin_reserve := pool.reserve_coin
  let token_reserve := pool.reserve_token
  if coin_reserve = 0 ∨ token_reserve = 0 then coin_amount
  else
    let k := coin_reserve * token_reserve
    let new_coin_reserve := coin_reserve + coin_amount
    let new_token_reserve := k / new_coin_reserve
    if new_token_reserve < token_reserve then token_reserve - new_token_reserve
    else 0

/-- Move `calculate_sell_amount`: constant-product output for a sell. -/
def calculate_sell_amount (pool : Pool) (token_amount : Nat) : Nat :=
  let coin_reserve := pool.reserve_coin
  let token_reserve := pool.reserve_token
  if coin_reserve = 0 ∨ token_reserve = 0 then 0
  else
    let k := coin_reserve * token_reserve
    let new_token_reserve := token_reserve + token_amount
    let new_coin_reserve := k / new_token_reserve
    if new_coin_reserve < coin_reserve then coin_reserve - new_coin_reserve
    else 0

/-- Move `calculate_current_price`: coin reserve over token reserve. -/
def calculate_current_price (pool : Pool) : Nat :=
  if pool.reserve_token = 0 then 0
  else pool.reserve_coin / pool.reserve_token

/-- Move `calculate_deviation`: percent distance of `actual` from `expected`,
with the convention 100 ("max deviation") when `expected = 0`. -/
def calculate_deviation (expected actual : Nat) : Nat :=
  if expected = 0 then 100
  else if expected < actual then (actual - expected) * 100 / expected
  else (expected - actual) * 100 / expected

/-- Move `update_trader_score`: update the first ledger entry of `trader`
(add the deviation and volume, bump the count, recompute
`score = total_deviation / trade_count`), or append a fresh entry. -/
def update_trader_score (trader deviation volume : Nat) :
    List TraderScore → List TraderScore
  | [] => [{ trader := trader, total_deviation := deviation, trade_count := 1,
             volume := volume, score := deviation }]
  | s :: rest =>
    if s.trader = trader then
      { trader := s.trader
        total_deviation := s.total_deviation + deviation
        trade_count := s.trade_count + 1
        volume := s.volume + volume
        score := (s.total_deviation + deviation) / (s.trade_count + 1) } :: rest
    else s :: update_trader_score trader deviation volume rest

/-- One step of the `find_best_trader` loop: take the entry when its score
beats the running best and it has at least 3 trades. -/
def fbStep (st : Nat × Nat) (s : TraderScore) : Nat × Nat :=
  if s.score < st.2 ∧ 3 ≤ s.trade_count then (s.trader, s.score) else st

/-- Move `find_best_trader`: lowest score among traders with `trade_count >= 3`,
seeded with the null address and `18446744073709551615`. -/
def find_best_trader (scores : List TraderScore) : Nat :=
  if scores = [] then 0
  else (scores.foldl fbStep (0, MathUtils.U64MAX)).1

/-- Move `get_trader_final_score`: score of the first entry of `trader`, 0 if
absent. -/
def get_trader_final_score (trader : Nat) : List TraderScore → Nat
  | [] => 0
  | s :: rest => if s.trader = trader then s.score else get_trader_final_score trader rest

/-- Move `lock_pool_and_transfer_all`: set the terminal lock, clear the active
flag, and move both reserves out to the treasury (zeroing them in the
pool). -/
def lock_pool_and_transfer_all (pool : Pool) : Pool :=
  { pool with
    is_locked := true
    is_active := false
    reserve_coin := 0
    reserve_token := 0 }

/-- Reserve/volume state after the AMM step of `buy_tokens`. -/
def buy_p1 (pool : Pool) (coin_amount : Nat) : Pool :=
  { pool with
    reserve_coin := pool.reserve_coin + coin_amount
    reserve_token := pool.reserve_token - calculate_buy_amount pool coin_amount
    total_volume := pool.total_volume + coin_amount }

/-- The candle index `buy_tokens` evaluates (on the post-trade pool, whose
timing fields coincide with those of the pre-trade pool). -/
def buy_candle (pool : Pool) (now coin_amount : Nat) : Nat :=
  get_current_candle (buy_p1 pool coin_amount) now

/-- The deviation `buy_tokens` computes: curve-expected price at the current
candle against the post-trade reserve price. -/
def buy_dev (pool : Pool) (now coin_amount : Nat) : Nat :=
  calculate_deviation
    (calculate_expected_price_for_candle (buy_p1 pool coin_amount)
      (buy_candle pool now coin_amount))
    (calculate_current_price (buy_p1 pool coin_amount))

/-- Move `buy_tokens`: guards, AMM execution, candle-time deviation scoring, and
the once-per-candle threshold check that locks the pool. -/
def buy_tokens (pool : Pool) (trader now pool_id coin_amount : Nat) :
    Except Nat Pool :=
  if pool.id ≠ pool_id then .error EPOOL_NOT_ACTIVE
  else if pool.is_locked then .error EPOOL_LOCKED
  else if now < pool.start_time then .error EPOOL_NOT_STARTED
  else if pool.end_time < now then .error EPOOL_ENDED
  else
    let tokens_out := calculate_buy_amount pool coin_amount
    if tokens_out = 0 then .error EINVALID_AMOUNT
    else if pool.reserve_token < tokens_out then .error EINSUFFICIENT_LIQUIDITY
    else
      let p1 := buy_p1 pool coin_amount
      let current_candle := buy_candle pool now coin_amount
      let deviation := buy_dev pool now coin_amount
      let p2 := { p1 with
        trader_scores := update_trader_score trader deviation coin_amount p1.trader_scores }
      if pool.last_deviation_check < current_candle then
        let p3 := { p2 with last_deviation_check := current_candle }
        if pool.params.threshold_percent < deviation then
          .ok (lock_pool_and_transfer_all p3)
        else .ok p3
      else .ok p2

/-- Reserve/volume state after the AMM step of `sell_tokens`. -/
def sell_p1 (pool : Pool) (token_amount : Nat) : Pool :=
  { pool with
    reserve_token := pool.reserve_token + token_amount
    reserve_coin := pool.reserve_coin - calculate_sell_amount pool token_amount
    total_volume := pool.total_volume + calculate_sell_amount pool token_amount }

/-- The candle index `sell_tokens` evaluates. -/
def sell_candle (pool : Pool) (now token_amount : Nat) : Nat :=
  get_current_candle (sell_p1 pool token_amount) now

/-- The deviation `sell_tokens` computes. -/
def sell_dev (pool : Pool) (now token_amount : Nat) : Nat :=
  calculate_deviation
    (calculate_expected_price_for_candle (sell_p1 pool token_amount)
      (sell_candle pool now token_amount))
    (calculate_current_price (sell_p1 pool token_amount))

/-- Move `sell_tokens`: the sell-side twin of `buy_tokens`. -/
def sell_tokens (pool : Pool) (trader now pool_id token_amount : Nat) :
    Except Nat Pool :=
  if pool.id ≠ pool_id then .error EPOOL_NOT_ACTIVE
  else if pool.is_locked then .error EPOOL_LOCKED
  else if now < pool.start_time then .error EPOOL_NOT_STARTED
  else if pool.end_time < now then .error EPOOL_ENDED
  else
    let coins_out := calculate_sell_amount pool token_amount
    if coins_out = 0 then .error EINVALID_AMOUNT
    else if pool.reserve_coin < coins_out then .error EINSUFFICIENT_LIQUIDITY
    else
      let p1 := sell_p1 pool token_amount
      let current_candle := sell_candle pool now token_amount
      let deviation := sell_dev pool now token_amount
      let p2 := { p1 with
        trader_scores := update_trader_score trader deviation coins_out p1.trader_scores }
      if pool.last_deviation_check < current_candle then
        let p3 := { p2 with last_deviation_check := current_candle }
        if pool.params.threshold_percent < deviation then
          .ok (lock_pool_and_transfer_all p3)
        else .ok p3
      else .ok p2

/-- Move `finalize_pool`: deactivate; if not locked and there are trader scores,
set the winner from `find_best_trader`; return
`(winner, is_locked, total_volume)` together with the final pool.  The
source contains no end-time guard and no already-finalized guard. -/
def finalize_pool (pool : Pool) (pool_id : Nat) :
    Except Nat (Pool × Nat × Bool × Nat) :=
  if pool.id ≠ pool_id then .error EPOOL_NOT_ACTIVE
  else
    let p1 := { pool with is_active := false }
    let p2 :=
      if ¬p1.is_locked ∧ p1.trader_scores ≠ [] then
        { p1 with winner := find_best_trader p1.trader_scores }
      else p1
    .ok (p2, p2.winner, p2.is_locked, p2.total_volume)

end PoolPair

namespace CurveLauncher

def EPOOL_NOT_FOUND : Nat := 2
def EINVALID_PARAMS : Nat := 4
def MINUTES_PER_DAY : Nat := 1440
def POOL_DURATION_SECONDS : Nat := 86400

/-- Move `curve_launcher::LauncherData` (admin address and the default-params
record are irrelevant to the verified operations and dropped). -/
structure LauncherData where
  current_pool_id : Nat
  next_pool_start : Nat
  active_pools : List Nat
  completed_pools : List Nat
  deriving DecidableEq, Repr

/-- Move `curve_launcher::create_new_pool` (second, candle-count variant):
validate `ticker_duration ∈ {5,10,15}`, `threshold ∈ (0,50]`,
`start_delay ≤ 24h`; only then allocate the next pool id, derive
`candle_count = 1440 / ticker_duration` and create the pool. -/
def create_new_pool (L : LauncherData) (now height ticker_duration threshold_percent start_delay : Nat) :
    Except Nat (LauncherData × PoolPair.Pool) :=
  if ¬(ticker_duration = 5 ∨ ticker_duration = 10 ∨ ticker_duration = 15) then
    .error EINVALID_PARAMS
  else if ¬(0 < threshold_percent ∧ threshold_percent ≤ 50) then
    .error EINVALID_PARAMS
  else if 86400 < start_delay then .error EINVALID_PARAMS
  else
    let pool_id := L.current_pool_id + 1
    let candle_count := MINUTES_PER_DAY / ticker_duration
    let params : PoolPair.CurveParams :=
      { height := height, length := candle_count,
        ticker_duration := ticker_duration, threshold_percent := threshold_percent }
    let pool_start := now + start_delay
    let pool := PoolPair.create_pool pool_id params pool_start
    .ok ({ L with
            current_pool_id := pool_id
            active_pools := L.active_pools ++ [pool_id]
            next_pool_start := pool_start + POOL_DURATION_SECONDS }, pool)

/-- Move `curve_launcher::complete_pool`: require the pool id to be in the active
list, move it to the completed list, and finalize the pool (the VRF request
issued for locked pools is an external effect). -/
def complete_pool (L : LauncherData) (pool : PoolPair.Pool) (pool_id : Nat) :
    Except Nat (LauncherData × PoolPair.Pool × Nat × Bool × Nat) :=
  if pool_id ∈ L.active_pools then
    let L1 := { L with
      active_pools := L.active_pools.erase pool_id
      completed_pools := L.completed_pools ++ [pool_id] }
    match PoolPair.finalize_pool pool pool_id with
    | .error e => .error e
    | .ok (p, w, lk, v) => .ok (L1, p, w, lk, v)
  else .error EPOOL_NOT_FOUND

end CurveLauncher

namespace PoolManager

def EINVALID_POOL : Nat := 1
def EPOOL_LOCKED : Nat := 2
def EPOOL_EXPIRED : Nat := 3
def EINVALID_DELAY : Nat := 4
def EZERO_RESERVES : Nat := 7
def EINVALID_CANDLE_SIZE : Nat := 8

/-- Move `pool_manager::TraderDeviation` (part_014). -/
structure TraderDeviation where
  trader : Nat
  deviation : Nat
  trade_count : Nat
  last_updated : Nat
  deriving DecidableEq, Repr

/-- Move `pool_manager::Pool` (part_014); the token resource-account address is
irrelevant to the verified logic and dropped. -/
structure Pool where
  id : Nat
  l_value : Nat
  h_value : Nat
  x_reserve : Nat
  y_reserve : Nat
  start_time : Nat
  end_time : Nat
  is_locked : Bool
  total_trades : Nat
  trader_deviations : List TraderDeviation
  current_winner : Nat
  winner_proposed_delay : Nat
  winner_proposed_candle_size : Nat
  deriving DecidableEq, Repr

/-- Move `validate_candle_size`: membership in `{5, 10, 15}`. -/
def valid_candle_size (candle_size : Nat) : Prop :=
  candle_size = 5 ∨ candle_size = 10 ∨ candle_size = 15

instance (candle_size : Nat) : Decidable (valid_candle_size candle_size) := by
  unfold valid_candle_size; infer_instance

/-- Move `update_trader_deviation`: average the first matching entry with the new
sample (`(existing + new) / 2`), bump the count and timestamp, or append a
fresh entry. -/
def update_trader_deviation (trader new_deviation now : Nat) :
    List TraderDeviation → List TraderDeviation
  | [] => [{ trader := trader, deviation := new_deviation, trade_count := 1,
             last_updated := now }]
  | t :: rest =>
    if t.trader = trader then
      { trader := t.trader
        deviation := (t.deviation + new_deviation) / 2
        trade_count := t.trade_count + 1
        last_updated := now } :: rest
    else t :: update_trader_deviation trader new_deviation now rest

/-- One step of the winner loops of part_014 (`determine_winner` and
`get_current_winner` contain the identical loop): take the entry on a
strictly lower deviation, or on an equal deviation with a strictly more
recent `last_updated`. -/
def dwStep (st : Nat × Nat × Nat) (t : TraderDeviation) : Nat × Nat × Nat :=
  if t.deviation < st.2.1 ∨ (t.deviation = st.2.1 ∧ st.2.2 < t.last_updated) then
    (t.trader, t.deviation, t.last_updated)
  else st

/-- The shared winner loop, seeded with the null address, the literal
`18446744073709551615` and timestamp 0. -/
def winner_loop (l : List TraderDeviation) : Nat × Nat × Nat :=
  l.foldl dwStep (0, MathUtils.U64MAX, 0)

/-- Move `determine_winner` (lowest deviation, most recent on a tie). -/
def determine_winner (l : List TraderDeviation) : Nat × Nat :=
  if l = [] then (0, 0)
  else ((winner_loop l).1, (winner_loop l).2.1)

/-- Move `get_current_winner`: the same loop, duplicated in the source as a
private helper of `trade`. -/
def get_current_winner (l : List TraderDeviation) : Nat × Nat :=
  if l = [] then (0, 0)
  else ((winner_loop l).1, (winner_loop l).2.1)

/-- Move `get_trader_deviation`: stored (averaged) deviation of a trader, 0 if
absent. -/
def get_trader_deviation (trader : Nat) : List TraderDeviation → Nat
  | [] => 0
  | t :: rest => if t.trader = trader then t.deviation else get_trader_deviation trader rest

/-- The candle size of the current pool, derived from `l_value`
(`(24 * 60) / pool.l_value`). -/
def trade_candle_size (pool : Pool) : Nat := 24 * 60 / pool.l_value

/-- The candle index `trade` computes from the elapsed time. -/
def trade_candle (pool : Pool) (now : Nat) : Nat :=
  let time_elapsed := now - pool.start_time
  let candle_duration := trade_candle_size pool * 60
  if time_elapsed < candle_duration then 0
  else time_elapsed / candle_duration

/-- The curve-expected output `trade` computes: `calculate_curve_y` at the
next candle (`current + 1`), with the height unscaled back to a regular
number. -/
def trade_curve_expected (pool : Pool) (now : Nat) : Nat :=
  MathUtils.calculate_curve_y (trade_candle pool now + 1)
    (MathUtils.from_fixed_point pool.h_value) pool.l_value

/-- The AMM output `trade` computes for the requested side, on fixed-point
quantities. -/
def trade_amm_out (pool : Pool) (quantity : Nat) (side : Bool) : Nat :=
  let quantity_fixed := MathUtils.to_fixed_point quantity
  if side then MathUtils.calculate_amm_out quantity_fixed pool.x_reserve pool.y_reserve
  else MathUtils.calculate_amm_out quantity_fixed pool.y_reserve pool.x_reserve

/-- The fixed-point deviation `trade` computes:
`|amm_out - curve_expected| * 10000 / curve_expected` via the saturating
multiply and the precision-aware divide, 0 when the curve expects 0. -/
def trade_deviation (pool : Pool) (now quantity : Nat) (side : Bool) : Nat :=
  let curve_expected := trade_curve_expected pool now
  if 0 < curve_expected then
    MathUtils.safe_div_precision
      (MathUtils.safe_mul (MathUtils.abs_diff (trade_amm_out pool quantity side) curve_expected) 10000)
      curve_expected
  else 0

/-- Move `pool_manager::trade` (part_014): guards, AMM execution and reserve
update, deviation scoring, and live winner tracking.  Returns the post-trade
pool and the recorded basis-point deviation sample
(`from_fixed_point` of the fixed-point deviation, the value handed to
`update_trader_deviation` and emitted in the trade event).  The coin/fee
transfers against the framework and treasury are external effects. -/
def trade (pool : Pool) (pool_id now trader quantity : Nat) (side : Bool)
    (delay candle_size : Nat) : Except Nat (Pool × Nat) :=
  if pool.id ≠ pool_id then .error EINVALID_POOL
  else if pool.is_locked then .error EPOOL_LOCKED
  else if ¬valid_candle_size candle_size then .error EINVALID_CANDLE_SIZE
  else if ¬(pool.start_time ≤ now ∧ now ≤ pool.end_time) then .error EPOOL_EXPIRED
  else if 12 * 3600 < delay then .error EINVALID_DELAY
  else if ¬(0 < pool.x_reserve ∧ 0 < pool.y_reserve) then .error EZERO_RESERVES
  else
    let quantity_fixed := MathUtils.to_fixed_point quantity
    let amm_output := trade_amm_out pool quantity side
    let deviation := trade_deviation pool now quantity side
    let p1 :=
      if side then
        { pool with
          x_reserve := MathUtils.safe_add pool.x_reserve quantity_fixed
          y_reserve := MathUtils.safe_sub pool.y_reserve amm_output }
      else
        { pool with
          x_reserve := MathUtils.safe_sub pool.x_reserve amm_output
          y_reserve := MathUtils.safe_add pool.y_reserve quantity_fixed }
    let deviation_bp := MathUtils.from_fixed_point deviation
    let new_deviations := update_trader_deviation trader deviation_bp now p1.trader_deviations
    let winner_pair := get_current_winner new_deviations
    let p2 := { p1 with
      trader_deviations := new_deviations
      current_winner := winner_pair.1
      winner_proposed_delay := delay
      winner_proposed_candle_size := candle_size
      total_trades := p1.total_trades + 1 }
    .ok (p2, deviation_bp)

/-- The initial height pushed for the first pool:
`H_0 = 1` in fixed point. -/
def h0 : Nat := MathUtils.to_fixed_point 1

/-- The height recurrence of `create_pool` (part_014):
`Hnext = sqrt(H) * sqrt(L)` computed as integer square roots of the unscaled
values, rescaled to fixed point and combined with the fixed-point
multiplication. -/
def next_h (prev_h_value l_value : Nat) : Nat :=
  let sqrt_l := MathUtils.sqrt l_value
  let sqrt_l_fixed := MathUtils.to_fixed_point sqrt_l
  let sqrt_h_regular := MathUtils.from_fixed_point prev_h_value
  let sqrt_h := MathUtils.sqrt sqrt_h_regular
  let sqrt_h_fixed := MathUtils.to_fixed_point sqrt_h
  MathUtils.safe_mul_fixed_point sqrt_h_fixed sqrt_l_fixed

end PoolManager

namespace PoolManager13

/-- The height recurrence of `create_pool` in the older part_013 snapshot.
Its comment also announces `H_{i+1} = sqrt(H_i) * sqrt(L)`, but the computed
`sqrt_h` is never used: `sqrt_h_fixed` is `to_fixed_point` of the previous
(already fixed-point) height itself, and the combination uses the plain
`safe_mul` instead of the fixed-point multiplication. -/
def next_h (previous_h l_value : Nat) : Nat :=
  let sqrt_l := MathUtils.sqrt l_value
  let sqrt_l_fixed := MathUtils.to_fixed_point sqrt_l
  let _sqrt_h := MathUtils.sqrt previous_h
  let sqrt_h_fixed := MathUtils.to_fixed_point previous_h
  MathUtils.safe_mul sqrt_h_fixed sqrt_l_fixed

end PoolManager13

/- ============================================================
   C8: degenerate divisions are total and return 0
   ============================================================ -/

/-- C8: the degenerate divisions are total and return 0 instead of aborting:
`calculate_amm_out` returns 0 whenever `x_in`, `x_reserve` or `y_reserve`
is zero; `calculate_curve_y` returns 0 whenever `l = 0` or `x > l`; and
`safe_div a 0 = 0` for every `a`. -/
theorem c8_degenerate_divisions_total :
    (∀ a, MathUtils.safe_div a 0 = 0) ∧
    (∀ xr yr, MathUtils.calculate_amm_out 0 xr yr = 0) ∧
    (∀ xi yr, MathUtils.calculate_amm_out xi 0 yr = 0) ∧
    (∀ xi xr, MathUtils.calculate_amm_out xi xr 0 = 0) ∧
    (∀ x h, MathUtils.calculate_curve_y x h 0 = 0) ∧
    (∀ h l d, MathUtils.calculate_curve_y (l + d + 1) h l = 0) := by
  refine ⟨fun a => by simp [MathUtils.safe_div],
    fun xr yr => by simp [MathUtils.calculate_amm_out],
    fun xi yr => by simp [MathUtils.calculate_amm_out],
    fun xi xr => by simp [MathUtils.calculate_amm_out],
    fun x h => by
      unfold MathUtils.calculate_curve_y
      rcases Nat.eq_zero_or_pos x with h0 | h0
      · simp [h0]
      · rw [if_pos (Or.inl h0)],
    fun h l d => by
      unfold MathUtils.calculate_curve_y
      rw [if_pos (Or.inl (by omega))]⟩

/- ============================================================
   C9: sqrt — bounded iteration and floor-sqrt behaviour
   ============================================================ -/

/-- C9 counterexample: the Newton loop is capped at 20 iterations, so for a
large input the returned value is not the integer square root: `2^80` is a
perfect square with root `2^40`, but `sqrt (2^80)` differs from `2^40`. -/
theorem c9_newton_cap_counterexample :
    MathUtils.sqrt (2 ^ 80) ≠ 2 ^ 40 ∧ 2 ^ 40 * 2 ^ 40 = 2 ^ 80 := by
  constructor
  · decide
  · decide

/-- C9 (amended): `sqrt` is total (its two loops are explicitly bounded) and
returns `floor (sqrt x)` for every input below 10000 — in particular it meets
the canonical protocol values `sqrt 96 = 9`, `sqrt 144 = 12`,
`sqrt 288 = 16`; above 10000 the 20-iteration Newton cap can leave the result
strictly above the integer square root. -/
theorem c9_sqrt_amended :
    (∀ x, x < 10000 → MathUtils.sqrt x = Nat.sqrt x) ∧
    MathUtils.sqrt 96 = 9 ∧ MathUtils.sqrt 144 = 12 ∧ MathUtils.sqrt 288 = 16 := by
  refine ⟨MathUtils.sqrt_eq_nat_sqrt_of_lt, by decide, by decide, by decide⟩

/-- C9 witness: the amended theorem applied at the canonical input 96. -/
theorem c9_sqrt_amended_witness :
    96 < 10000 ∧ MathUtils.sqrt 96 = Nat.sqrt 96 :=
  ⟨by decide, c9_sqrt_amended.1 96 (by decide)⟩

/- ============================================================
   C5: height recurrence of pool creation
   ============================================================ -/

/-- For values bounded by 99 the fixed-point multiplication is exact:
`(a * P) *fp (b * P) = (a * b) * P`. -/
theorem smfp_small (a b : Nat) (ha : a ≤ 99) (hb : b ≤ 99) :
    MathUtils.safe_mul_fixed_point (a * MathUtils.PRECISION) (b * MathUtils.PRECISION) =
      a * b * MathUtils.PRECISION := by
  have hP : 0 < MathUtils.PRECISION := by norm_num [MathUtils.PRECISION]
  unfold MathUtils.safe_mul_fixed_point
  by_cases h0 : a * MathUtils.PRECISION = 0 ∨ b * MathUtils.PRECISION = 0
  · rw [if_pos h0]
    rcases h0 with h0 | h0
    · have : a = 0 := by
        rcases Nat.mul_eq_zero.mp h0 with h | h
        · exact h
        · omega
      simp [this]
    · have : b = 0 := by
        rcases Nat.mul_eq_zero.mp h0 with h | h
        · exact h
        · omega
      simp [this]
  · rw [if_neg h0]
    push_neg at h0
    have hbP : 0 < b * MathUtils.PRECISION := Nat.pos_of_ne_zero h0.2
    have hprod : a * MathUtils.PRECISION * (b * MathUtils.PRECISION) ≤ MathUtils.MAX_U128 := by
      have h1 : a * MathUtils.PRECISION ≤ 99 * MathUtils.PRECISION :=
        Nat.mul_le_mul_right _ ha
      have h2 : b * MathUtils.PRECISION ≤ 99 * MathUtils.PRECISION :=
        Nat.mul_le_mul_right _ hb
      calc a * MathUtils.PRECISION * (b * MathUtils.PRECISION)
          ≤ 99 * MathUtils.PRECISION * (99 * MathUtils.PRECISION) := Nat.mul_le_mul h1 h2
        _ ≤ MathUtils.MAX_U128 := by decide
    have hle : a * MathUtils.PRECISION ≤ MathUtils.MAX_U128 / (b * MathUtils.PRECISION) :=
      (Nat.le_div_iff_mul_le hbP).mpr hprod
    rw [if_neg (by omega)]
    have he : a * MathUtils.PRECISION * (b * MathUtils.PRECISION) =
        a * b * MathUtils.PRECISION * MathUtils.PRECISION := by ring
    rw [he, Nat.mul_div_cancel _ hP]

/-- Rescaling a value bounded by 99 never saturates. -/
theorem to_fixed_small (a : Nat) (ha : a ≤ 99) :
    MathUtils.to_fixed_point a = a * MathUtils.PRECISION := by
  unfold MathUtils.to_fixed_point
  rw [if_neg (by
    have : (99 : Nat) ≤ MathUtils.MAX_U128 / MathUtils.PRECISION := by decide
    omega)]

/-- C5: the claim holds of the part_014 registry and the code of part_013 is
the slip.  The part_014 recurrence equals the spec recurrence
`Hnext = sqrt(H) * sqrt(L)` — integer square roots of the unscaled values,
rescaled to fixed point, combined with the fixed-point multiplication —
whenever the unscaled operands are in the range where the source square
root is exact, and the initial height is 1 in fixed point.  The part_013
snapshot, whose own comment announces the same recurrence, instead computes
`to_fixed_point(H) * to_fixed_point(sqrt L)` with the plain saturating
multiply (its computed `sqrt_h` is dead), yielding `9 * 10^24` instead of
`9 * 10^8` already at the second pool with `H_1 = 1.0` and `L = 96`. -/
theorem c5_height_recurrence :
    (∀ h l, MathUtils.from_fixed_point h < 10000 → l < 10000 →
       PoolManager.next_h h l =
         Nat.sqrt (MathUtils.from_fixed_point h) * Nat.sqrt l * MathUtils.PRECISION) ∧
    PoolManager.h0 = MathUtils.PRECISION ∧
    PoolManager13.next_h MathUtils.PRECISION 96 =
      9 * (MathUtils.PRECISION * MathUtils.PRECISION * MathUtils.PRECISION) ∧
    PoolManager13.next_h MathUtils.PRECISION 96 ≠ PoolManager.next_h MathUtils.PRECISION 96 := by
  refine ⟨?_, by decide, by decide, by decide⟩
  intro h l h1 h2
  show MathUtils.safe_mul_fixed_point
      (MathUtils.to_fixed_point (MathUtils.sqrt (MathUtils.from_fixed_point h)))
      (MathUtils.to_fixed_point (MathUtils.sqrt l)) = _
  rw [MathUtils.sqrt_eq_nat_sqrt_of_lt _ h1, MathUtils.sqrt_eq_nat_sqrt_of_lt _ h2]
  have ha : Nat.sqrt (MathUtils.from_fixed_point h) ≤ 99 := by
    have := Nat.sqrt_lt.mpr (show MathUtils.from_fixed_point h < 100 * 100 by omega)
    omega
  have hb : Nat.sqrt l ≤ 99 := by
    have := Nat.sqrt_lt.mpr (show l < 100 * 100 by omega)
    omega
  rw [to_fixed_small _ ha, to_fixed_small _ hb, smfp_small _ _ ha hb]

/-- C5 witness: the recurrence theorem applied at the first chained pool
(`H_1 = 1.0` fixed point, `L = 96`). -/
theorem c5_height_recurrence_witness :
    MathUtils.from_fixed_point MathUtils.PRECISION < 10000 ∧ 96 < 10000 ∧
    PoolManager.next_h MathUtils.PRECISION 96 =
      Nat.sqrt (MathUtils.from_fixed_point MathUtils.PRECISION) * Nat.sqrt 96 *
        MathUtils.PRECISION :=
  ⟨by decide, by decide, c5_height_recurrence.1 MathUtils.PRECISION 96 (by decide) (by decide)⟩

/- ============================================================
   C3: per-trade deviation formula
   ============================================================ -/

/-- A pool for the C3 counterexample: `pool_pair` pool at candle 0, where
the curve-expected price is 0. -/
def c3pool : PoolPair.Pool :=
  { id := 1
    params := { height := 100, length := 96, ticker_duration := 15, threshold_percent := 10 }
    start_time := 0
    end_time := 86400
    is_active := true
    is_locked := false
    total_supply := 1000000
    reserve_coin := 100
    reserve_token := 100
    trader_scores := []
    winner := 0
    total_volume := 0
    last_deviation_check := 0 }

/-- The pool after the C3 counterexample trade. -/
def c3pool_after : PoolPair.Pool :=
  { id := 1
    params := { height := 100, length := 96, ticker_duration := 15, threshold_percent := 10 }
    start_time := 0
    end_time := 86400
    is_active := true
    is_locked := false
    total_supply := 1000000
    reserve_coin := 150
    reserve_token := 66
    trader_scores := [{ trader := 9, total_deviation := 100, trade_count := 1,
                        volume := 50, score := 100 }]
    winner := 0
    total_volume := 50
    last_deviation_check := 0 }

/-- C3 counterexample: an accepted `pool_pair::buy_tokens` trade at candle 0,
where the curve-expected value is 0, records a deviation of 100 for the
trader — not 0 as the claim requires (and on a percent scale with
multiplier 100, not the claimed basis-point formula). -/
theorem c3_zero_expected_counterexample :
    PoolPair.buy_tokens c3pool 9 30 1 50 = .ok c3pool_after ∧
    PoolPair.calculate_expected_price_for_candle (PoolPair.buy_p1 c3pool 50)
      (PoolPair.buy_candle c3pool 30 50) = 0 ∧
    PoolPair.get_trader_final_score 9 c3pool_after.trader_scores = 100 ∧
    (100 : Nat) ≠ 0 := by
  refine ⟨by rfl, by rfl, by rfl, by decide⟩

/-- C3 (amended): in the part_014 `pool_manager::trade` the deviation recorded
for the trader (and returned with the trade) is
`abs(amm_out - curve_expected) * 10000 / curve_expected` in basis points
with integer division — exactly as claimed — whenever the saturating
multiply `abs_diff * 10000` does not clamp, and 0 whenever
`curve_expected = 0`; `pool_pair` instead records the percent-scale price
deviation with the convention 100 at a zero expected price
(see the counterexample). -/
theorem c3_deviation_formula_amended :
    ∀ pool pool_id now trader quantity side delay candle_size p2 dev,
      PoolManager.trade pool pool_id now trader quantity side delay candle_size =
        .ok (p2, dev) →
      (PoolManager.trade_curve_expected pool now = 0 → dev = 0) ∧
      (MathUtils.abs_diff (PoolManager.trade_amm_out pool quantity side)
          (PoolManager.trade_curve_expected pool now) * 10000 ≤ MathUtils.MAX_U128 →
        dev = MathUtils.abs_diff (PoolManager.trade_amm_out pool quantity side)
            (PoolManager.trade_curve_expected pool now) * 10000 /
          PoolManager.trade_curve_expected pool now) := by
  intro pool pool_id now trader quantity side delay candle_size p2 dev h
  simp only [PoolManager.trade] at h
  split at h <;> try exact Except.noConfusion h
  split at h <;> try exact Except.noConfusion h
  split at h <;> try exact Except.noConfusion h
  split at h <;> try exact Except.noConfusion h
  split at h <;> try exact Except.noConfusion h
  split at h <;> try exact Except.noConfusion h
  simp only [Except.ok.injEq, Prod.mk.injEq] at h
  obtain ⟨-, hdev⟩ := h
  subst hdev
  constructor
  · intro hc
    unfold PoolManager.trade_deviation
    rw [hc]
    simp [MathUtils.from_fixed_point]
  · intro hsat
    unfold PoolManager.trade_deviation
    by_cases hc : 0 < PoolManager.trade_curve_expected pool now
    · rw [if_pos hc, MathUtils.safe_mul_eq_of_le _ _ hsat,
        MathUtils.from_fixed_safe_div_precision]
    · have h0 : PoolManager.trade_curve_expected pool now = 0 := by omega
      rw [if_neg hc, h0]
      simp [MathUtils.from_fixed_point]

/-- A part_014 pool for the C3 witness. -/
def c3pool14 : PoolManager.Pool :=
  { id := 1
    l_value := 96
    h_value := 900000000
    x_reserve := 10000000000
    y_reserve := 100000000000
    start_time := 0
    end_time := 86400
    is_locked := false
    total_trades := 0
    trader_deviations := []
    current_winner := 0
    winner_proposed_delay := 0
    winner_proposed_candle_size := 0 }

/-- The recorded basis-point deviation of the C3 witness trade. -/
def c3devBp : Nat :=
  MathUtils.from_fixed_point (PoolManager.trade_deviation c3pool14 100 50 true)

/-- The post-state of the C3 witness trade. -/
def c3pool14_after : PoolManager.Pool :=
  { id := 1
    l_value := 96
    h_value := 900000000
    x_reserve := 15000000000
    y_reserve := 66666666666
    start_time := 0
    end_time := 86400
    is_locked := false
    total_trades := 1
    trader_deviations := [{ trader := 7, deviation := c3devBp, trade_count := 1,
                            last_updated := 100 }]
    current_winner := 7
    winner_proposed_delay := 0
    winner_proposed_candle_size := 5 }

/-- C3 witness: the amended theorem applied to a concrete accepted part_014
trade, with the saturation bound discharged by evaluation. -/
theorem c3_deviation_formula_amended_witness :
    PoolManager.trade c3pool14 1 100 7 50 true 0 5 = .ok (c3pool14_after, c3devBp) ∧
    c3devBp = MathUtils.abs_diff (PoolManager.trade_amm_out c3pool14 50 true)
        (PoolManager.trade_curve_expected c3pool14 100) * 10000 /
      PoolManager.trade_curve_expected c3pool14 100 := by
  have h : PoolManager.trade c3pool14 1 100 7 50 true 0 5 = .ok (c3pool14_after, c3devBp) := by
    rfl
  exact ⟨h, (c3_deviation_formula_amended c3pool14 1 100 7 50 true 0 5 c3pool14_after c3devBp h).2
    (by decide)⟩

/- ============================================================
   C1: candle-boundary deviation breach locks the pool
   ============================================================ -/

/-- Any `buy_tokens` call on a locked pool (with the matching id) aborts
with `EPOOL_LOCKED`; the aborted call leaves the pool untouched. -/
theorem buy_tokens_locked (pool : PoolPair.Pool) (trader now amt : Nat)
    (h : pool.is_locked = true) :
    PoolPair.buy_tokens pool trader now pool.id amt = .error PoolPair.EPOOL_LOCKED := by
  simp [PoolPair.buy_tokens, h]

/-- Any `sell_tokens` call on a locked pool (with the matching id) aborts
with `EPOOL_LOCKED`. -/
theorem sell_tokens_locked (pool : PoolPair.Pool) (trader now amt : Nat)
    (h : pool.is_locked = true) :
    PoolPair.sell_tokens pool trader now pool.id amt = .error PoolPair.EPOOL_LOCKED := by
  simp [PoolPair.sell_tokens, h]

/-- C1: on an accepted `buy_tokens` trade, if the computed deviation exceeds
the threshold of the pool and the candle index of the trade is strictly past the last
deviation check, the pool ends locked with both reserves zeroed (forwarded
to the treasury by `lock_pool_and_transfer_all`), and every subsequent
buy/sell call on the locked pool fails with `EPOOL_LOCKED` (an abort, which
leaves the pool state unchanged); a breaching trade whose candle index is
not past the last checked candle leaves the pool unlocked. -/
theorem c1_candle_breach_locks_pool :
    ∀ pool p2 trader now pool_id amt,
      PoolPair.buy_tokens pool trader now pool_id amt = .ok p2 →
      ((pool.last_deviation_check < PoolPair.buy_candle pool now amt →
        pool.params.threshold_percent < PoolPair.buy_dev pool now amt →
        p2.is_locked = true ∧ p2.reserve_coin = 0 ∧ p2.reserve_token = 0 ∧
        (∀ trader2 now2 amt2,
          PoolPair.buy_tokens p2 trader2 now2 p2.id amt2 = .error PoolPair.EPOOL_LOCKED) ∧
        (∀ trader2 now2 amt2,
          PoolPair.sell_tokens p2 trader2 now2 p2.id amt2 = .error PoolPair.EPOOL_LOCKED)) ∧
       (¬pool.last_deviation_check < PoolPair.buy_candle pool now amt →
        p2.is_locked = false)) := by
  intro pool p2 trader now pool_id amt h
  simp only [PoolPair.buy_tokens] at h
  split at h <;> try exact Except.noConfusion h
  split at h <;> try exact Except.noConfusion h
  split at h <;> try exact Except.noConfusion h
  split at h <;> try exact Except.noConfusion h
  split at h <;> try exact Except.noConfusion h
  split at h <;> try exact Except.noConfusion h
  rename_i hid hlk hst hen hz hliq
  constructor
  · intro hc hd
    rw [if_pos hc, if_pos hd] at h
    simp only [Except.ok.injEq] at h
    subst h
    refine ⟨rfl, rfl, rfl, ?_, ?_⟩
    · intro trader2 now2 amt2
      exact buy_tokens_locked _ trader2 now2 amt2 rfl
    · intro trader2 now2 amt2
      exact sell_tokens_locked _ trader2 now2 amt2 rfl
  · intro hc
    rw [if_neg hc] at h
    simp only [Except.ok.injEq] at h
    subst h
    show pool.is_locked = false
    simpa using hlk

/-- The pool of the C1 witness (threshold 10 percent, 15-minute candles). -/
def c1pool : PoolPair.Pool :=
  { id := 1
    params := { height := 100, length := 96, ticker_duration := 15, threshold_percent := 10 }
    start_time := 0
    end_time := 86400
    is_active := true
    is_locked := false
    total_supply := 1000000
    reserve_coin := 100
    reserve_token := 100
    trader_scores := []
    winner := 0
    total_volume := 0
    last_deviation_check := 0 }

/-- The locked pool after the breaching C1 witness trade (candle 1,
deviation 50 percent against threshold 10). -/
def c1lock : PoolPair.Pool :=
  { id := 1
    params := { height := 100, length := 96, ticker_duration := 15, threshold_percent := 10 }
    start_time := 0
    end_time := 86400
    is_active := false
    is_locked := true
    total_supply := 1000000
    reserve_coin := 0
    reserve_token := 0
    trader_scores := [{ trader := 42, total_deviation := 50, trade_count := 1,
                        volume := 50, score := 50 }]
    winner := 0
    total_volume := 50
    last_deviation_check := 1 }

/-- The pool after the C1 witness trade at candle 0 (deviation 100 but not a
fresh candle boundary — no lock). -/
def c1nolock : PoolPair.Pool :=
  { id := 1
    params := { height := 100, length := 96, ticker_duration := 15, threshold_percent := 10 }
    start_time := 0
    end_time := 86400
    is_active := true
    is_locked := false
    total_supply := 1000000
    reserve_coin := 150
    reserve_token := 66
    trader_scores := [{ trader := 42, total_deviation := 100, trade_count := 1,
                        volume := 50, score := 100 }]
    winner := 0
    total_volume := 50
    last_deviation_check := 0 }

/-- C1 witness: a breaching trade at a fresh candle boundary locks the pool
and zeroes the reserves, subsequent buys and sells fail with
`EPOOL_LOCKED`; the same breaching trade at candle 0 (not past the last
checked candle) leaves the pool unlocked. -/
theorem c1_candle_breach_locks_pool_witness :
    PoolPair.buy_tokens c1pool 42 900 1 50 = .ok c1lock ∧
    0 < PoolPair.buy_candle c1pool 900 50 ∧
    10 < PoolPair.buy_dev c1pool 900 50 ∧
    c1lock.is_locked = true ∧ c1lock.reserve_coin = 0 ∧ c1lock.reserve_token = 0 ∧
    PoolPair.buy_tokens c1lock 7 1000 1 5 = .error PoolPair.EPOOL_LOCKED ∧
    PoolPair.sell_tokens c1lock 7 1000 1 5 = .error PoolPair.EPOOL_LOCKED ∧
    PoolPair.buy_tokens c1pool 42 30 1 50 = .ok c1nolock ∧
    ¬(0 : Nat) < PoolPair.buy_candle c1pool 30 50 ∧
    c1nolock.is_locked = false := by
  have h1 : PoolPair.buy_tokens c1pool 42 900 1 50 = .ok c1lock := by rfl
  have h2 : PoolPair.buy_tokens c1pool 42 30 1 50 = .ok c1nolock := by rfl
  have H1 := (c1_candle_breach_locks_pool c1pool c1lock 42 900 1 50 h1).1
    (by decide) (by decide)
  have H2 := (c1_candle_breach_locks_pool c1pool c1nolock 42 30 1 50 h2).2 (by decide)
  exact ⟨h1, by decide, by decide, H1.1, H1.2.1, H1.2.2.1,
    H1.2.2.2.1 7 1000 5, H1.2.2.2.2 7 1000 5, h2, by decide, H2⟩

/- ============================================================
   Fold lemmas for the two winner-search loops
   ============================================================ -/

/-- The `find_best_trader` loop either leaves its seed untouched or lands on
an entry of the list with at least 3 trades. -/
theorem fb_fold_origin :
    ∀ (l : List PoolPair.TraderScore) (st : Nat × Nat),
      l.foldl PoolPair.fbStep st = st ∨
      ∃ s ∈ l, 3 ≤ s.trade_count ∧
        (l.foldl PoolPair.fbStep st).1 = s.trader ∧
        (l.foldl PoolPair.fbStep st).2 = s.score := by
  intro l
  induction l with
  | nil => intro st; exact Or.inl rfl
  | cons a l ih =>
    intro st
    rw [List.foldl_cons]
    rcases ih (PoolPair.fbStep st a) with h | ⟨s, hs, h3, h1, h2⟩
    · rw [h]
      by_cases hc : a.score < st.2 ∧ 3 ≤ a.trade_count
      · right
        exact ⟨a, List.mem_cons_self a l, hc.2, by simp [PoolPair.fbStep, hc],
          by simp [PoolPair.fbStep, hc]⟩
      · left
        simp [PoolPair.fbStep, hc]
    · right
      exact ⟨s, List.mem_cons_of_mem a hs, h3, h1, h2⟩

/-- The running best score of the `find_best_trader` loop never increases
and ends below the score of every eligible (3-or-more-trades) entry. -/
theorem fb_fold_min :
    ∀ (l : List PoolPair.TraderScore) (st : Nat × Nat),
      (l.foldl PoolPair.fbStep st).2 ≤ st.2 ∧
      ∀ s ∈ l, 3 ≤ s.trade_count → (l.foldl PoolPair.fbStep st).2 ≤ s.score := by
  intro l
  induction l with
  | nil => intro st; exact ⟨le_refl _, by simp⟩
  | cons a l ih =>
    intro st
    rw [List.foldl_cons]
    obtain ⟨ihle, ihmin⟩ := ih (PoolPair.fbStep st a)
    have hstep : (PoolPair.fbStep st a).2 ≤ st.2 := by
      unfold PoolPair.fbStep
      split
      · next hc => exact le_of_lt hc.1
      · exact le_refl _
    refine ⟨ihle.trans hstep, ?_⟩
    intro s hs h3
    rcases List.mem_cons.mp hs with rfl | hmem
    · by_cases hc : s.score < st.2 ∧ 3 ≤ s.trade_count
      · have he : (PoolPair.fbStep st s).2 = s.score := by simp [PoolPair.fbStep, hc]
        exact he ▸ ihle
      · have hge : st.2 ≤ s.score := by
          rcases Nat.lt_or_ge s.score st.2 with hlt | hge
          · exact absurd ⟨hlt, h3⟩ hc
          · exact hge
        exact (ihle.trans hstep).trans hge
    · exact ihmin s hmem h3

/-- The part_014 winner loop either leaves its seed untouched or lands on an
entry of the list. -/
theorem dw_fold_origin :
    ∀ (l : List PoolManager.TraderDeviation) (st : Nat × Nat × Nat),
      l.foldl PoolManager.dwStep st = st ∨
      ∃ t ∈ l, l.foldl PoolManager.dwStep st =
        (t.trader, t.deviation, t.last_updated) := by
  intro l
  induction l with
  | nil => intro st; exact Or.inl rfl
  | cons a l ih =>
    intro st
    rw [List.foldl_cons]
    rcases ih (PoolManager.dwStep st a) with h | ⟨t, ht, he⟩
    · rw [h]
      by_cases hc : a.deviation < st.2.1 ∨ (a.deviation = st.2.1 ∧ st.2.2 < a.last_updated)
      · right
        exact ⟨a, List.mem_cons_self a l, by simp [PoolManager.dwStep, hc]⟩
      · left
        simp [PoolManager.dwStep, hc]
    · right
      exact ⟨t, List.mem_cons_of_mem a ht, he⟩

/-- The running minimum deviation of the part_014 winner loop never
increases and ends below the deviation of every entry. -/
theorem dw_fold_min :
    ∀ (l : List PoolManager.TraderDeviation) (st : Nat × Nat × Nat),
      (l.foldl PoolManager.dwStep st).2.1 ≤ st.2.1 ∧
      ∀ t ∈ l, (l.foldl PoolManager.dwStep st).2.1 ≤ t.deviation := by
  intro l
  induction l with
  | nil => intro st; exact ⟨le_refl _, by simp⟩
  | cons a l ih =>
    intro st
    rw [List.foldl_cons]
    obtain ⟨ihle, ihmin⟩ := ih (PoolManager.dwStep st a)
    have hstep : (PoolManager.dwStep st a).2.1 ≤ st.2.1 := by
      unfold PoolManager.dwStep
      split
      · next hc =>
        rcases hc with hlt | ⟨heq, -⟩
        · exact le_of_lt hlt
        · exact le_of_eq heq
      · exact le_refl _
    refine ⟨ihle.trans hstep, ?_⟩
    intro t ht
    rcases List.mem_cons.mp ht with rfl | hmem
    · by_cases hc : t.deviation < st.2.1 ∨ (t.deviation = st.2.1 ∧ st.2.2 < t.last_updated)
      · have he : (PoolManager.dwStep st t).2.1 = t.deviation := by
          simp [PoolManager.dwStep, hc]
        exact he ▸ ihle
      · have hge : st.2.1 ≤ t.deviation := by
          rcases Nat.lt_or_ge t.deviation st.2.1 with hlt | hge
          · exact absurd (Or.inl hlt) hc
          · exact hge
        exact (ihle.trans hstep).trans hge
    · exact ihmin t hmem

/-- If the part_014 winner loop ends with the same minimum it started with,
the recorded timestamp never went down. -/
theorem dw_fold_ts :
    ∀ (l : List PoolManager.TraderDeviation) (st : Nat × Nat × Nat),
      (l.foldl PoolManager.dwStep st).2.1 = st.2.1 →
      st.2.2 ≤ (l.foldl PoolManager.dwStep st).2.2 := by
  intro l
  induction l with
  | nil => intro st _; exact le_refl _
  | cons a l ih =>
    intro st
    rw [List.foldl_cons]
    by_cases hc : a.deviation < st.2.1 ∨ (a.deviation = st.2.1 ∧ st.2.2 < a.last_updated)
    · have hstep : PoolManager.dwStep st a = (a.trader, a.deviation, a.last_updated) := by
        simp [PoolManager.dwStep, hc]
      rw [hstep]
      intro hpre
      have hmin := (dw_fold_min l (a.trader, a.deviation, a.last_updated)).1
      rcases hc with hlt | ⟨heq, hts⟩
      · simp only at hmin hpre
        omega
      · have := ih (a.trader, a.deviation, a.last_updated) (by simp only at hpre ⊢; omega)
        simp only at this
        omega
    · have hstep : PoolManager.dwStep st a = st := by simp [PoolManager.dwStep, hc]
      rw [hstep]
      exact ih st

/-- Every entry whose deviation equals the final minimum of the part_014
winner loop has a timestamp at most the recorded one: the loop keeps the
most recent among the minimal entries. -/
theorem dw_fold_rec :
    ∀ (l : List PoolManager.TraderDeviation) (st : Nat × Nat × Nat),
      ∀ t ∈ l, t.deviation = (l.foldl PoolManager.dwStep st).2.1 →
        t.last_updated ≤ (l.foldl PoolManager.dwStep st).2.2 := by
  intro l
  induction l with
  | nil => intro st t ht; exact absurd ht (List.not_mem_nil t)
  | cons a l ih =>
    intro st t ht hdev
    rw [List.foldl_cons] at hdev ⊢
    rcases List.mem_cons.mp ht with rfl | hmem
    · by_cases hc : t.deviation < st.2.1 ∨ (t.deviation = st.2.1 ∧ st.2.2 < t.last_updated)
      · have hstep : PoolManager.dwStep st t = (t.trader, t.deviation, t.last_updated) := by
          simp [PoolManager.dwStep, hc]
        rw [hstep] at hdev ⊢
        have := dw_fold_ts l (t.trader, t.deviation, t.last_updated)
          (by simp only; omega)
        simp only at this
        omega
      · have hstep : PoolManager.dwStep st t = st := by simp [PoolManager.dwStep, hc]
        rw [hstep] at hdev ⊢
        push_neg at hc
        obtain ⟨hge, himp⟩ := hc
        have hminle := (dw_fold_min l st).1
        rcases Nat.lt_or_ge st.2.1 t.deviation with hlt | hge2
        · omega
        · have heq : t.deviation = st.2.1 := by omega
          have hts := himp heq
          have := dw_fold_ts l st (by omega)
          omega
    · exact ih (PoolManager.dwStep st a) t hmem hdev

/- ============================================================
   C10: the 3-trade eligibility filter of the winner search
   ============================================================ -/

/-- C10: `find_best_trader` never selects a trader with fewer than 3
recorded trades — its result is either the null address 0 or the address of
an entry with `trade_count >= 3` — and a pool whose traders all have fewer
than 3 trades finalizes with the null winner address 0. -/
theorem c10_min_trades_filter :
    (∀ scores, PoolPair.find_best_trader scores = 0 ∨
       ∃ s ∈ scores, 3 ≤ s.trade_count ∧ PoolPair.find_best_trader scores = s.trader) ∧
    (∀ pool p2 w lk v, pool.winner = 0 →
       (∀ s ∈ pool.trader_scores, s.trade_count < 3) →
       PoolPair.finalize_pool pool pool.id = .ok (p2, w, lk, v) → w = 0) := by
  constructor
  · intro scores
    unfold PoolPair.find_best_trader
    split
    · exact Or.inl rfl
    · rcases fb_fold_origin scores (0, MathUtils.U64MAX) with he | ⟨s, hs, h3, h1, -⟩
      · rw [he]
        exact Or.inl rfl
      · exact Or.inr ⟨s, hs, h3, h1⟩
  · intro pool p2 w lk v hw hall h
    have hfbt : PoolPair.find_best_trader pool.trader_scores = 0 := by
      unfold PoolPair.find_best_trader
      split
      · rfl
      · rcases fb_fold_origin pool.trader_scores (0, MathUtils.U64MAX) with he | ⟨s, hs, h3, -, -⟩
        · rw [he]
        · have := hall s hs
          omega
    unfold PoolPair.finalize_pool at h
    rw [if_neg (by simp)] at h
    simp only [Except.ok.injEq, Prod.mk.injEq] at h
    obtain ⟨-, hw2, -, -⟩ := h
    rw [← hw2]
    split
    · exact hfbt
    · exact hw

/-- The all-small-traders pool of the C10 witness. -/
def c10pool : PoolPair.Pool :=
  { id := 1
    params := { height := 100, length := 96, ticker_duration := 15, threshold_percent := 10 }
    start_time := 0
    end_time := 86400
    is_active := true
    is_locked := false
    total_supply := 1000000
    reserve_coin := 100
    reserve_token := 100
    trader_scores := [{ trader := 3, total_deviation := 10, trade_count := 2,
                        volume := 1, score := 5 }]
    winner := 0
    total_volume := 0
    last_deviation_check := 0 }

/-- The C10 pool after finalization (deactivated, winner still null). -/
def c10after : PoolPair.Pool :=
  { id := 1
    params := { height := 100, length := 96, ticker_duration := 15, threshold_percent := 10 }
    start_time := 0
    end_time := 86400
    is_active := false
    is_locked := false
    total_supply := 1000000
    reserve_coin := 100
    reserve_token := 100
    trader_scores := [{ trader := 3, total_deviation := 10, trade_count := 2,
                        volume := 1, score := 5 }]
    winner := 0
    total_volume := 0
    last_deviation_check := 0 }

/-- C10 witness: a pool with a single sub-3-trades trader (score 5, the
overall minimum) finalizes with the null winner address. -/
theorem c10_min_trades_filter_witness :
    c10pool.winner = 0 ∧
    (∀ s ∈ c10pool.trader_scores, s.trade_count < 3) ∧
    PoolPair.finalize_pool c10pool c10pool.id = .ok (c10after, 0, false, 0) ∧
    (0 : Nat) = 0 := by
  have h : PoolPair.finalize_pool c10pool c10pool.id = .ok (c10after, 0, false, 0) := by rfl
  exact ⟨rfl, by decide, h,
    c10_min_trades_filter.2 c10pool c10after 0 false 0 rfl (by decide) h⟩

/- ============================================================
   C2: winner selection rule
   ============================================================ -/

/-- The scores of the C2 counterexample: trader 2 has the minimal
running score (5) but only 2 trades; trader 1 (score 100) has 3 trades. -/
def c2pool : PoolPair.Pool :=
  { id := 1
    params := { height := 100, length := 96, ticker_duration := 15, threshold_percent := 10 }
    start_time := 0
    end_time := 86400
    is_active := true
    is_locked := false
    total_supply := 1000000
    reserve_coin := 100
    reserve_token := 100
    trader_scores := [{ trader := 1, total_deviation := 300, trade_count := 3,
                        volume := 10, score := 100 },
                      { trader := 2, total_deviation := 10, trade_count := 2,
                        volume := 10, score := 5 }]
    winner := 0
    total_volume := 0
    last_deviation_check := 0 }

/-- The C2 counterexample pool after finalization: the winner is trader 1. -/
def c2after : PoolPair.Pool :=
  { id := 1
    params := { height := 100, length := 96, ticker_duration := 15, threshold_percent := 10 }
    start_time := 0
    end_time := 86400
    is_active := false
    is_locked := false
    total_supply := 1000000
    reserve_coin := 100
    reserve_token := 100
    trader_scores := [{ trader := 1, total_deviation := 300, trade_count := 3,
                        volume := 10, score := 100 },
                      { trader := 2, total_deviation := 10, trade_count := 2,
                        volume := 10, score := 5 }]
    winner := 1
    total_volume := 0
    last_deviation_check := 0 }

/-- C2 counterexample: finalizing an unlocked pool whose minimal-score
trader (trader 2, score 5) has fewer than 3 trades selects trader 1 (score
100) — the running score of the selected winner is not minimal over all traders
in the pool. -/
theorem c2_tradecount_filter_counterexample :
    PoolPair.finalize_pool c2pool 1 = .ok (c2after, 1, false, 0) ∧
    PoolPair.get_trader_final_score 2 c2pool.trader_scores = 5 ∧
    PoolPair.get_trader_final_score 1 c2pool.trader_scores = 100 ∧
    (5 : Nat) < 100 := by
  refine ⟨by rfl, by rfl, by rfl, by decide⟩

/-- C2 (amended): in `pool_pair`, `find_best_trader` selects a trader of
minimal running score among the traders with at least 3 recorded trades
(provided one such trader has a score below the `18446744073709551615`
seed), not over all traders, and `pool_pair` keeps no `last_updated`
timestamp; the lowest-score/most-recent rule of the claim is implemented by
the part_014 `determine_winner`: on a non-empty trader set whose deviations
are below the seed, it returns a trader with minimal stored deviation, and
among the minimal entries one with the greatest `last_updated`. -/
theorem c2_winner_selection_amended :
    (∀ scores, (∃ s ∈ scores, 3 ≤ s.trade_count ∧ s.score < MathUtils.U64MAX) →
       ∃ s ∈ scores, 3 ≤ s.trade_count ∧ PoolPair.find_best_trader scores = s.trader ∧
         ∀ r ∈ scores, 3 ≤ r.trade_count → s.score ≤ r.score) ∧
    (∀ l : List PoolManager.TraderDeviation, l ≠ [] →
       (∀ t ∈ l, t.deviation < MathUtils.U64MAX) →
       ∃ t ∈ l, PoolManager.determine_winner l = (t.trader, t.deviation) ∧
         (∀ r ∈ l, t.deviation ≤ r.deviation) ∧
         (∀ r ∈ l, r.deviation = t.deviation → r.last_updated ≤ t.last_updated)) := by
  constructor
  · intro scores ⟨s0, hs0, h30, hlt0⟩
    have hne : scores ≠ [] := by
      rintro rfl
      exact absurd hs0 (List.not_mem_nil s0)
    unfold PoolPair.find_best_trader
    rw [if_neg hne]
    rcases fb_fold_origin scores (0, MathUtils.U64MAX) with he | ⟨s, hs, h3, h1, h2⟩
    · have := (fb_fold_min scores (0, MathUtils.U64MAX)).2 s0 hs0 h30
      rw [he] at this
      omega
    · refine ⟨s, hs, h3, h1, ?_⟩
      intro r hr h3r
      have := (fb_fold_min scores (0, MathUtils.U64MAX)).2 r hr h3r
      omega
  · intro l hne hdev
    rcases dw_fold_origin l (0, MathUtils.U64MAX, 0) with he | ⟨t, ht, heq⟩
    · obtain ⟨t0, ht0⟩ := List.exists_mem_of_ne_nil l hne
      have := (dw_fold_min l (0, MathUtils.U64MAX, 0)).2 t0 ht0
      have hd0 := hdev t0 ht0
      rw [he] at this
      simp only at this
      omega
    · refine ⟨t, ht, ?_, ?_, ?_⟩
      · unfold PoolManager.determine_winner PoolManager.winner_loop
        rw [if_neg hne, heq]
      · intro r hr
        have := (dw_fold_min l (0, MathUtils.U64MAX, 0)).2 r hr
        rw [heq] at this
        exact this
      · intro r hr hre
        have := dw_fold_rec l (0, MathUtils.U64MAX, 0) r hr (by rw [heq]; exact hre)
        rw [heq] at this
        exact this

/-- The eligible score list of the C2 witness. -/
def c2scoresW : List PoolPair.TraderScore :=
  [{ trader := 1, total_deviation := 30, trade_count := 3, volume := 1, score := 10 },
   { trader := 2, total_deviation := 80, trade_count := 4, volume := 1, score := 20 }]

/-- The tied deviation list of the C2 witness: equal deviations 7,
trader 5 more recent. -/
def c2devsW : List PoolManager.TraderDeviation :=
  [{ trader := 4, deviation := 7, trade_count := 1, last_updated := 50 },
   { trader := 5, deviation := 7, trade_count := 1, last_updated := 60 }]

/-- C2 witness: both halves of the amended theorem applied at concrete
inputs — the filtered minimum for `find_best_trader`, and the tie broken by
the most recent `last_updated` for `determine_winner`. -/
theorem c2_winner_selection_amended_witness :
    ((∃ s ∈ c2scoresW, 3 ≤ s.trade_count ∧ s.score < MathUtils.U64MAX) ∧
     (∃ s ∈ c2scoresW, 3 ≤ s.trade_count ∧ PoolPair.find_best_trader c2scoresW = s.trader ∧
        ∀ r ∈ c2scoresW, 3 ≤ r.trade_count → s.score ≤ r.score)) ∧
    (c2devsW ≠ [] ∧ (∀ t ∈ c2devsW, t.deviation < MathUtils.U64MAX) ∧
     (∃ t ∈ c2devsW, PoolManager.determine_winner c2devsW = (t.trader, t.deviation) ∧
        (∀ r ∈ c2devsW, t.deviation ≤ r.deviation) ∧
        (∀ r ∈ c2devsW, r.deviation = t.deviation → r.last_updated ≤ t.last_updated))) := by
  refine ⟨⟨by decide, c2_winner_selection_amended.1 c2scoresW (by decide)⟩,
    ⟨by decide, by decide, c2_winner_selection_amended.2 c2devsW (by decide) (by decide)⟩⟩

/- ============================================================
   C4: running score as arithmetic mean
   ============================================================ -/

namespace PoolPair

/-- One trade event as fed into `update_trader_score` by
`buy_tokens`/`sell_tokens`: the trader, the computed deviation, and the
trade volume. -/
structure TradeRec where
  trader : Nat
  dev : Nat
  vol : Nat
  deriving DecidableEq, Repr

/-- The trader-score ledger produced by a pool that processed the given
trade events in order through `update_trader_score`, starting from the
empty ledger of `create_pool`. -/
def runLedger (evs : List TradeRec) : List TraderScore :=
  evs.foldl (fun acc e => update_trader_score e.trader e.dev e.vol acc) []

/-- First ledger entry of a trader, as the score-reading loops
(`update_trader_score`, `get_trader_final_score`) locate it. -/
def lookupScore (trader : Nat) : List TraderScore → Option TraderScore
  | [] => none
  | s :: rest => if s.trader = trader then some s else lookupScore trader rest

/-- Sum of the deviations of the events of a trader. -/
def sumDev (trader : Nat) : List TradeRec → Nat
  | [] => 0
  | e :: r => (if e.trader = trader then e.dev else 0) + sumDev trader r

/-- Number of the events of a trader. -/
def cntTr (trader : Nat) : List TradeRec → Nat
  | [] => 0
  | e :: r => (if e.trader = trader then 1 else 0) + cntTr trader r

/-- Sum of the volumes of the events of a trader. -/
def sumVol (trader : Nat) : List TradeRec → Nat
  | [] => 0
  | e :: r => (if e.trader = trader then e.vol else 0) + sumVol trader r

theorem sumDev_append (trader : Nat) (evs : List TradeRec) (e : TradeRec) :
    sumDev trader (evs ++ [e]) = sumDev trader evs + (if e.trader = trader then e.dev else 0) := by
  induction evs with
  | nil => simp [sumDev]
  | cons a r ih => simp [sumDev, ih, Nat.add_assoc]

theorem cntTr_append (trader : Nat) (evs : List TradeRec) (e : TradeRec) :
    cntTr trader (evs ++ [e]) = cntTr trader evs + (if e.trader = trader then 1 else 0) := by
  induction evs with
  | nil => simp [cntTr]
  | cons a r ih => simp [cntTr, ih, Nat.add_assoc]

theorem sumVol_append (trader : Nat) (evs : List TradeRec) (e : TradeRec) :
    sumVol trader (evs ++ [e]) = sumVol trader evs + (if e.trader = trader then e.vol else 0) := by
  induction evs with
  | nil => simp [sumVol]
  | cons a r ih => simp [sumVol, ih, Nat.add_assoc]

theorem sums_zero_of_cnt_zero (trader : Nat) (evs : List TradeRec)
    (h : cntTr trader evs = 0) : sumDev trader evs = 0 ∧ sumVol trader evs = 0 := by
  induction evs with
  | nil => exact ⟨rfl, rfl⟩
  | cons a r ih =>
    by_cases ha : a.trader = trader
    · exfalso
      simp [cntTr, ha] at h
    · simp only [cntTr, if_neg ha, Nat.zero_add] at h
      obtain ⟨h1, h2⟩ := ih h
      simp [sumDev, sumVol, if_neg ha, h1, h2]

/-- How `update_trader_score` changes the looked-up entry of a trader. -/
theorem lookupScore_update (t d v trader : Nat) (scores : List TraderScore) :
    lookupScore trader (update_trader_score t d v scores) =
      if trader = t then
        (match lookupScore t scores with
         | none => some { trader := t, total_deviation := d, trade_count := 1,
                          volume := v, score := d }
         | some s => some { trader := s.trader, total_deviation := s.total_deviation + d,
                            trade_count := s.trade_count + 1, volume := s.volume + v,
                            score := (s.total_deviation + d) / (s.trade_count + 1) })
      else lookupScore trader scores := by
  induction scores with
  | nil =>
    by_cases hT : trader = t
    · simp [update_trader_score, lookupScore, hT]
    · have htT : ¬t = trader := fun h => hT h.symm
      simp [update_trader_score, lookupScore, hT, htT]
  | cons s rest ih =>
    by_cases hst : s.trader = t
    · by_cases hT : trader = t
      · have h1 : s.trader = trader := hst.trans hT.symm
        simp [update_trader_score, lookupScore, hst, hT, h1]
      · have htT : ¬t = trader := fun h => hT h.symm
        have hs2 : ¬s.trader = trader := by rw [hst]; exact htT
        simp [update_trader_score, lookupScore, hst, hT, htT, hs2]
    · by_cases hsT : s.trader = trader
      · have hT : ¬trader = t := fun h => hst (hsT.trans h)
        simp [update_trader_score, lookupScore, hst, hsT, hT]
      · simp [update_trader_score, lookupScore, hst, hsT, ih]

/-- The ledger invariant: after any event sequence, the entry of a trader
(present exactly when the trader has traded) carries the sum of their
deviations, their trade count, the sum of their volumes, and the integer
mean as its score. -/
theorem runLedger_lookup (evs : List TradeRec) :
    ∀ trader, lookupScore trader (runLedger evs) =
      if 0 < cntTr trader evs then
        some { trader := trader, total_deviation := sumDev trader evs,
               trade_count := cntTr trader evs, volume := sumVol trader evs,
               score := sumDev trader evs / cntTr trader evs }
      else none := by
  induction evs using List.reverseRecOn with
  | nil => intro trader; simp [runLedger, lookupScore, cntTr]
  | append_singleton evs e ih =>
    intro trader
    have hrun : runLedger (evs ++ [e]) =
        update_trader_score e.trader e.dev e.vol (runLedger evs) := by
      simp [runLedger, List.foldl_append]
    rw [hrun, lookupScore_update]
    by_cases hT : trader = e.trader
    · subst hT
      rw [if_pos rfl, ih e.trader]
      have hsd : sumDev e.trader (evs ++ [e]) = sumDev e.trader evs + e.dev := by
        rw [sumDev_append]; simp
      have hct : cntTr e.trader (evs ++ [e]) = cntTr e.trader evs + 1 := by
        rw [cntTr_append]; simp
      have hsv : sumVol e.trader (evs ++ [e]) = sumVol e.trader evs + e.vol := by
        rw [sumVol_append]; simp
      rw [hsd, hct, hsv]
      by_cases hcnt : 0 < cntTr e.trader evs
      · rw [if_pos hcnt, if_pos (by omega)]
      · rw [if_neg hcnt]
        have hc0 : cntTr e.trader evs = 0 := by omega
        obtain ⟨hd0, hv0⟩ := sums_zero_of_cnt_zero e.trader evs hc0
        rw [if_pos (by omega), hc0, hd0, hv0]
        simp
    · rw [if_neg hT, ih trader]
      have he : ¬e.trader = trader := fun h => hT h.symm
      rw [sumDev_append, cntTr_append, sumVol_append, if_neg he, if_neg he, if_neg he]
      simp

/-- C4 counterexample (part_014): a trader whose per-trade deviations were
0, 0, 6 carries the stored running deviation 3 — the pairwise average
`(old + new) / 2` — while the arithmetic mean `total / count` is
`6 / 3 = 2`. -/
theorem c4_pairwise_average_counterexample :
    PoolManager.get_trader_deviation 7
      (PoolManager.update_trader_deviation 7 6 300
        (PoolManager.update_trader_deviation 7 0 200
          (PoolManager.update_trader_deviation 7 0 100 []))) = 3 ∧
    (0 + 0 + 6) / 3 = 2 ∧ (3 : Nat) ≠ 2 := by
  refine ⟨by rfl, by decide, by decide⟩

/-- C4 (amended): in `pool_pair` the claim holds — after any sequence of
trades, the ledger entry of each trader satisfies
`score = total_deviation / trade_count`, where `total_deviation` is the sum
and `trade_count` the number of the per-trade deviations of that trader, and an
accepted `buy_tokens` trade updates the ledger exactly by
`update_trader_score` with the computed deviation and volume; the part_014
`update_trader_deviation` instead keeps a pairwise average `(old + new) / 2`
(see the counterexample). -/
theorem c4_running_score_amended :
    (∀ evs trader s, PoolPair.lookupScore trader (PoolPair.runLedger evs) = some s →
       s.total_deviation = PoolPair.sumDev trader evs ∧
       s.trade_count = PoolPair.cntTr trader evs ∧
       s.volume = PoolPair.sumVol trader evs ∧
       s.score = PoolPair.sumDev trader evs / PoolPair.cntTr trader evs) ∧
    (∀ pool p2 trader now pool_id amt,
       PoolPair.buy_tokens pool trader now pool_id amt = .ok p2 →
       p2.trader_scores =
         PoolPair.update_trader_score trader (PoolPair.buy_dev pool now amt) amt
           pool.trader_scores) := by
  constructor
  · intro evs trader s h
    rw [runLedger_lookup evs trader] at h
    split at h
    · simp only [Option.some.injEq] at h
      subst h
      exact ⟨rfl, rfl, rfl, rfl⟩
    · exact Option.noConfusion h
  · intro pool p2 trader now pool_id amt h
    simp only [PoolPair.buy_tokens] at h
    split at h <;> try exact Except.noConfusion h
    split at h <;> try exact Except.noConfusion h
    split at h <;> try exact Except.noConfusion h
    split at h <;> try exact Except.noConfusion h
    split at h <;> try exact Except.noConfusion h
    split at h <;> try exact Except.noConfusion h
    split at h
    · split at h
      · simp only [Except.ok.injEq] at h
        subst h
        rfl
      · simp only [Except.ok.injEq] at h
        subst h
        rfl
    · simp only [Except.ok.injEq] at h
      subst h
      rfl

end PoolPair

/-- The event list of the C4 witness. -/
def c4evs : List PoolPair.TradeRec :=
  [{ trader := 5, dev := 10, vol := 100 }, { trader := 5, dev := 20, vol := 50 }]

/-- The expected ledger entry of the C4 witness. -/
def c4entry : PoolPair.TraderScore :=
  { trader := 5, total_deviation := 30, trade_count := 2, volume := 150, score := 15 }

/-- C4 witness: the amended theorem applied to a concrete two-trade
ledger — the stored score 15 is the integer mean `30 / 2`. -/
theorem c4_running_score_amended_witness :
    PoolPair.lookupScore 5 (PoolPair.runLedger c4evs) = some c4entry ∧
    c4entry.total_deviation = PoolPair.sumDev 5 c4evs ∧
    c4entry.trade_count = PoolPair.cntTr 5 c4evs ∧
    c4entry.score = PoolPair.sumDev 5 c4evs / PoolPair.cntTr 5 c4evs := by
  have h : PoolPair.lookupScore 5 (PoolPair.runLedger c4evs) = some c4entry := by rfl
  obtain ⟨h1, h2, -, h4⟩ := PoolPair.c4_running_score_amended.1 c4evs 5 c4entry h
  exact ⟨h, h1, h2, h4⟩

/- ============================================================
   C6: finalize guards
   ============================================================ -/

/-- The pool of the C6 counterexample, whose trading window is still open
(it ends at 87400, far in the future of any call). -/
def c6pool : PoolPair.Pool :=
  { id := 1
    params := { height := 100, length := 96, ticker_duration := 15, threshold_percent := 10 }
    start_time := 1000
    end_time := 87400
    is_active := true
    is_locked := false
    total_supply := 1000000
    reserve_coin := 100
    reserve_token := 100
    trader_scores := []
    winner := 0
    total_volume := 0
    last_deviation_check := 0 }

/-- The C6 pool after finalization. -/
def c6after : PoolPair.Pool :=
  { id := 1
    params := { height := 100, length := 96, ticker_duration := 15, threshold_percent := 10 }
    start_time := 1000
    end_time := 87400
    is_active := false
    is_locked := false
    total_supply := 1000000
    reserve_coin := 100
    reserve_token := 100
    trader_scores := []
    winner := 0
    total_volume := 0
    last_deviation_check := 0 }

/-- C6 counterexample: `pool_pair::finalize_pool` reads no clock and keeps
no completion flag — finalizing a pool whose window has not ended succeeds
(no `PoolNotYetEnded` error is possible), and a second `finalize_pool` call
on the already-finalized pool succeeds again instead of failing with a
state error. -/
theorem c6_finalize_before_end_counterexample :
    PoolPair.finalize_pool c6pool 1 = .ok (c6after, 0, false, 0) ∧
    PoolPair.finalize_pool c6after 1 = .ok (c6after, 0, false, 0) := by
  exact ⟨by rfl, by rfl⟩

/-- C6 (amended): `finalize_pool` itself enforces no end-time and no
single-call guard — any call with the matching pool id succeeds; the
second-call failure exists only one level up: after a successful
`complete_pool`, the pool id has left the active list of the launcher, so a
second `complete_pool` for the same id fails with `EPOOL_NOT_FOUND` (an
abort, before any further registry or pool mutation). -/
theorem c6_finalize_amended :
    (∀ pool pool_id, pool.id = pool_id →
       ∃ r, PoolPair.finalize_pool pool pool_id = .ok r) ∧
    (∀ L pool pool_id L2 rest,
       L.active_pools.count pool_id ≤ 1 →
       CurveLauncher.complete_pool L pool pool_id = .ok (L2, rest) →
       ∀ q, CurveLauncher.complete_pool L2 q pool_id =
         .error CurveLauncher.EPOOL_NOT_FOUND) := by
  constructor
  · intro pool pool_id hid
    unfold PoolPair.finalize_pool
    rw [if_neg (by simp [hid])]
    exact ⟨_, rfl⟩
  · intro L pool pool_id L2 rest hcount h q
    unfold CurveLauncher.complete_pool at h
    split at h
    · cases hfin : PoolPair.finalize_pool pool pool_id with
      | error e =>
        rw [hfin] at h
        exact Except.noConfusion h
      | ok r =>
        rw [hfin] at h
        obtain ⟨p, w, lk, v⟩ := r
        simp only [Except.ok.injEq, Prod.mk.injEq] at h
        obtain ⟨hL, -⟩ := h
        have hz : (L.active_pools.erase pool_id).count pool_id = 0 := by
          rw [List.count_erase_self]
          omega
        have hnm : pool_id ∉ L.active_pools.erase pool_id := List.count_eq_zero.mp hz
        unfold CurveLauncher.complete_pool
        rw [if_neg (by rw [← hL]; exact hnm)]
    · exact Except.noConfusion h

/-- The launcher of the C6 witness, with pool 1 active. -/
def c6launcher : CurveLauncher.LauncherData :=
  { current_pool_id := 1
    next_pool_start := 90000
    active_pools := [1]
    completed_pools := [] }

/-- The C6 launcher after completing pool 1. -/
def c6launcher2 : CurveLauncher.LauncherData :=
  { current_pool_id := 1
    next_pool_start := 90000
    active_pools := []
    completed_pools := [1] }

/-- C6 witness: the amended theorem applied to a concrete launcher — the
first `complete_pool` succeeds, and the second call for the same pool id
fails with `EPOOL_NOT_FOUND`. -/
theorem c6_finalize_amended_witness :
    c6pool.id = 1 ∧
    (∃ r, PoolPair.finalize_pool c6pool 1 = .ok r) ∧
    ([1] : List Nat).count 1 ≤ 1 ∧
    CurveLauncher.complete_pool c6launcher c6pool 1 = .ok (c6launcher2, c6after, 0, false, 0) ∧
    CurveLauncher.complete_pool c6launcher2 c6pool 1 =
      .error CurveLauncher.EPOOL_NOT_FOUND := by
  have h : CurveLauncher.complete_pool c6launcher c6pool 1 =
      .ok (c6launcher2, c6after, 0, false, 0) := by rfl
  exact ⟨rfl, c6_finalize_amended.1 c6pool 1 rfl, by decide, h,
    c6_finalize_amended.2 c6launcher c6pool 1 c6launcher2 (c6after, 0, false, 0)
      (by decide) h c6pool⟩

/- ============================================================
   C7: synchronous rejection of guard violations
   ============================================================ -/

/-- C7: guard-violating calls abort synchronously with the dedicated error
and without any state mutation (an aborted Move transaction rolls back; in
the embedding the error result carries no new state): a part_014 `trade` on
a locked pool, with an invalid proposed candle size, outside the trading
window, or with a proposed delay above 12h, and a launcher
`create_new_pool` with an invalid ticker duration, an out-of-range
threshold, or a start delay above 24h — the latter aborts before the pool
id counter or the active list is touched. -/
theorem c7_guard_rejections :
    (∀ pool pid now trader q side delay cs,
       pool.id = pid → pool.is_locked = true →
       PoolManager.trade pool pid now trader q side delay cs =
         .error PoolManager.EPOOL_LOCKED) ∧
    (∀ pool pid now trader q side delay cs,
       pool.id = pid → pool.is_locked = false → ¬PoolManager.valid_candle_size cs →
       PoolManager.trade pool pid now trader q side delay cs =
         .error PoolManager.EINVALID_CANDLE_SIZE) ∧
    (∀ pool pid now trader q side delay cs,
       pool.id = pid → pool.is_locked = false → PoolManager.valid_candle_size cs →
       ¬(pool.start_time ≤ now ∧ now ≤ pool.end_time) →
       PoolManager.trade pool pid now trader q side delay cs =
         .error PoolManager.EPOOL_EXPIRED) ∧
    (∀ pool pid now trader q side delay cs,
       pool.id = pid → pool.is_locked = false → PoolManager.valid_candle_size cs →
       pool.start_time ≤ now → now ≤ pool.end_time → 12 * 3600 < delay →
       PoolManager.trade pool pid now trader q side delay cs =
         .error PoolManager.EINVALID_DELAY) ∧
    (∀ L now height ticker threshold start_delay,
       (¬(ticker = 5 ∨ ticker = 10 ∨ ticker = 15) ∨ threshold = 0 ∨ 50 < threshold ∨
         86400 < start_delay) →
       CurveLauncher.create_new_pool L now height ticker threshold start_delay =
         .error CurveLauncher.EINVALID_PARAMS) := by
  refine ⟨?_, ?_, ?_, ?_, ?_⟩
  · intro pool pid now trader q side delay cs hid hlk
    simp [PoolManager.trade, hid, hlk]
  · intro pool pid now trader q side delay cs hid hlk hcs
    simp [PoolManager.trade, hid, hlk, hcs]
  · intro pool pid now trader q side delay cs hid hlk hcs hwin
    simp [PoolManager.trade, hid, hlk, hcs, hwin]
  · intro pool pid now trader q side delay cs hid hlk hcs h1 h2 hdel
    simp [PoolManager.trade, hid, hlk, hcs, h1, h2, hdel]
  · intro L now height ticker threshold start_delay hbad
    unfold CurveLauncher.create_new_pool
    by_cases h1 : ticker = 5 ∨ ticker = 10 ∨ ticker = 15
    · rw [if_neg (by simp [h1])]
      by_cases h2 : 0 < threshold ∧ threshold ≤ 50
      · rw [if_neg (by simp [h2])]
        rw [if_pos (by omega)]
      · rw [if_pos h2]
    · rw [if_pos h1]

/-- The locked pool of the C7 witness. -/
def c7pool : PoolManager.Pool :=
  { id := 1
    l_value := 96
    h_value := 900000000
    x_reserve := 10000000000
    y_reserve := 100000000000
    start_time := 0
    end_time := 86400
    is_locked := true
    total_trades := 0
    trader_deviations := []
    current_winner := 0
    winner_proposed_delay := 0
    winner_proposed_candle_size := 0 }

/-- The launcher of the C7 witness. -/
def c7launcher : CurveLauncher.LauncherData :=
  { current_pool_id := 3
    next_pool_start := 90000
    active_pools := [3]
    completed_pools := [1, 2] }

/-- C7 witness: a trade on a locked pool fails with `EPOOL_LOCKED`, and
`create_new_pool` with `ticker_duration = 7` fails with
`EINVALID_PARAMS`. -/
theorem c7_guard_rejections_witness :
    c7pool.id = 1 ∧ c7pool.is_locked = true ∧
    PoolManager.trade c7pool 1 100 9 50 true 0 5 = .error PoolManager.EPOOL_LOCKED ∧
    ¬((7 : Nat) = 5 ∨ (7 : Nat) = 10 ∨ (7 : Nat) = 15) ∧
    CurveLauncher.create_new_pool c7launcher 0 100 7 10 0 =
      .error CurveLauncher.EINVALID_PARAMS := by
  refine ⟨rfl, rfl, c7_guard_rejections.1 c7pool 1 100 9 50 true 0 5 rfl rfl, by decide,
    c7_guard_rejections.2.2.2.2 c7launcher 0 100 7 10 0 (Or.inl (by decide))⟩

end TitsFun
